import Mathlib

/-!
Shallow embedding of the unicity-mcp-merch payment-coordination server.

The embedding follows the TypeScript sources:
* `src/src/order-service.ts` — `OrderService` (orders map, `createOrder`,
  `markAsPaid`, `markAsShipped`, `linkPaymentToOrder`);
* `src/src/catalog.ts` — the product catalog and prices (bigint, 18 decimals);
* `src/unnamed/part_000` — the MCP tool handlers (`place_order`,
  `confirm_order`) including the zod input schema;
* `src/unnamed/part_001` — `NostrService` (eager-registration version):
  pending-payment registry, `sendPaymentRequest`, the timeout timer,
  `handleIncomingTransfer`, `waitForExistingPayment`;
* `src/unnamed/part_002` — the second `NostrService` version, whose
  `sendPaymentRequest` registers the pending entry only inside
  `waitForPayment`.

JavaScript `Map`s are modelled as association lists in insertion order
(`Map.set` updates in place or appends; iteration is insertion order).
Promises are modelled as single-assignment cells `Option Bool` keyed by a
numeric id; resolving an already-settled promise is a no-op, and resolution
enqueues a notification on a microtask queue (`queue`) that is delivered to
waiters (`delivered`) only after the current synchronous block, matching the
JavaScript event-loop semantics the code relies on.
-/

namespace Merch

/-- Association-list lookup, mirroring JavaScript `Map.get`. -/
def assocGet [DecidableEq κ] : List (κ × α) → κ → Option α
  | [], _ => none
  | p :: rest, key => if p.1 = key then some p.2 else assocGet rest key

/-- Association-list update/insert, mirroring JavaScript `Map.set`:
an existing key keeps its position, a new key is appended. -/
def assocSet [DecidableEq κ] : List (κ × α) → κ → α → List (κ × α)
  | [], key, v => [(key, v)]
  | p :: rest, key, v =>
    if p.1 = key then (p.1, v) :: rest else p :: assocSet rest key v

/-- Association-list removal, mirroring JavaScript `Map.delete`. -/
def assocDelete [DecidableEq κ] : List (κ × α) → κ → List (κ × α)
  | [], _ => []
  | p :: rest, key =>
    if p.1 = key then assocDelete rest key else p :: assocDelete rest key

theorem assocGet_assocSet_self [DecidableEq κ] (l : List (κ × α)) (k : κ) (v : α) :
    assocGet (assocSet l k v) k = some v := by
  induction l with
  | nil => simp [assocSet, assocGet]
  | cons p rest ih =>
    by_cases h : p.1 = k
    · simp [assocSet, assocGet, h]
    · simp [assocSet, assocGet, h, ih]

theorem assocGet_assocSet_ne [DecidableEq κ] (l : List (κ × α)) (k k' : κ) (v : α)
    (h : k' ≠ k) : assocGet (assocSet l k v) k' = assocGet l k' := by
  induction l with
  | nil =>
    have hk : ¬ (k = k') := fun hh => h hh.symm
    simp only [assocSet, assocGet, if_neg hk]
  | cons p rest ih =>
    by_cases hp : p.1 = k
    · have hk' : ¬ (p.1 = k') := by rw [hp]; exact fun hh => h hh.symm
      simp only [assocSet, if_pos hp, assocGet, if_neg hk']
    · by_cases hp' : p.1 = k'
      · simp only [assocSet, if_neg hp, assocGet, if_pos hp']
      · simp only [assocSet, if_neg hp, assocGet, if_neg hp', ih]

theorem assocGet_assocDelete_self [DecidableEq κ] (l : List (κ × α)) (k : κ) :
    assocGet (assocDelete l k) k = none := by
  induction l with
  | nil => simp [assocDelete, assocGet]
  | cons p rest ih =>
    by_cases h : p.1 = k
    · simp [assocDelete, h, ih]
    · simp [assocDelete, assocGet, h, ih]

theorem mem_assocDelete [DecidableEq κ] {l : List (κ × α)} {k : κ} {x : κ × α}
    (h : x ∈ assocDelete l k) : x ∈ l ∧ x.1 ≠ k := by
  induction l with
  | nil => exact absurd h (by simp [assocDelete])
  | cons p rest ih =>
    by_cases hp : p.1 = k
    · rw [show assocDelete (p :: rest) k = assocDelete rest k by
        simp only [assocDelete, if_pos hp]] at h
      rcases ih h with ⟨hm, hne⟩
      exact ⟨List.mem_cons_of_mem _ hm, hne⟩
    · rw [show assocDelete (p :: rest) k = p :: assocDelete rest k by
        simp only [assocDelete, if_neg hp]] at h
      rcases List.mem_cons.mp h with h1 | h1
      · subst h1; exact ⟨List.mem_cons_self _ _, hp⟩
      · rcases ih h1 with ⟨hm, hne⟩
        exact ⟨List.mem_cons_of_mem _ hm, hne⟩

/-! Data model, from `src/src/types.ts` (bundled with order-service.ts). -/

/-- T-shirt sizes, from the `TShirtSize` union type. -/
inductive TShirtSize
  | S | M | L | XL | XXL
deriving DecidableEq

/-- Order lifecycle status, from the `Order.status` union type. -/
inductive OrderStatus
  | pending_payment | paid | shipped | delivered
deriving DecidableEq

/-- Product record, from the `Product` interface. Prices are bigint
(18-decimal UCT units), modelled as `Int`. -/
structure Product where
  id : String
  name : String
  description : String
  category : String
  price : Int
  sizes : Option (List TShirtSize)
  image : String
  inStock : Bool
deriving DecidableEq

/-- Order record, from the `Order` interface. -/
structure Order where
  orderId : String
  unicityId : String
  productId : String
  size : Option TShirtSize
  quantity : Int
  totalPrice : Int
  status : OrderStatus
  createdAt : Nat
  paidAt : Option Nat
deriving DecidableEq

/-- State of `OrderService` (order-service.ts): the `orders` map and the
`paymentToOrder` side table, both in insertion order. -/
structure OrderServiceState where
  orders : List (String × Order)
  paymentToOrder : List (String × String)
deriving DecidableEq

/-- Empty `OrderService`, as constructed. -/
def emptyOrderService : OrderServiceState := { orders := [], paymentToOrder := [] }

/-- OrderService.createOrder (order-service.ts lines 10-29). The random
`orderId` (randomUUID().slice(0,8)) and `Date.now()` are passed in as
parameters. No validation happens here; `totalPrice` is
`product.price * BigInt(quantity)`. -/
def createOrder (s : OrderServiceState) (orderId : String) (now : Nat)
    (unicityId : String) (product : Product) (quantity : Int)
    (size : Option TShirtSize) : Order × OrderServiceState :=
  let order : Order :=
    { orderId := orderId
      unicityId := unicityId
      productId := product.id
      size := size
      quantity := quantity
      totalPrice := product.price * quantity
      status := OrderStatus.pending_payment
      createdAt := now
      paidAt := none }
  (order, { s with orders := assocSet s.orders orderId order })

/-- OrderService.getOrder. -/
def getOrder (s : OrderServiceState) (orderId : String) : Option Order :=
  assocGet s.orders orderId

/-- OrderService.linkPaymentToOrder. -/
def linkPaymentToOrder (s : OrderServiceState) (eventId orderId : String) :
    OrderServiceState :=
  { s with paymentToOrder := assocSet s.paymentToOrder eventId orderId }

/-- OrderService.markAsPaid (order-service.ts lines 53-60): if the order
exists, its status is set to `paid` and `paidAt` to now — with no check of
the current status. -/
def markAsPaid (s : OrderServiceState) (orderId : String) (now : Nat) :
    Option Order × OrderServiceState :=
  match assocGet s.orders orderId with
  | none => (none, s)
  | some o =>
    let o' := { o with status := OrderStatus.paid, paidAt := some now }
    (some o', { s with orders := assocSet s.orders orderId o' })

/-- OrderService.markAsShipped (order-service.ts lines 62-68): transitions
to `shipped` only when the current status is `paid`; otherwise the order is
returned unchanged. -/
def markAsShipped (s : OrderServiceState) (orderId : String) :
    Option Order × OrderServiceState :=
  match assocGet s.orders orderId with
  | none => (none, s)
  | some o =>
    if o.status = OrderStatus.paid then
      let o' := { o with status := OrderStatus.shipped }
      (some o', { s with orders := assocSet s.orders orderId o' })
    else (some o, s)

/-! Catalog, from `src/src/catalog.ts`. -/

/-- One UCT in base units (10^18), from catalog.ts. -/
def UCT : Int := 1000000000000000000

/-- Product "tshirt-unicity" from the catalog. -/
def tshirtUnicity : Product :=
  { id := "tshirt-unicity", name := "Unicity T-Shirt"
    description := "Premium cotton t-shirt with Unicity branding"
    category := "t-shirt", price := 25 * UCT
    sizes := some [TShirtSize.S, TShirtSize.M, TShirtSize.L, TShirtSize.XL, TShirtSize.XXL]
    image := "unicity-tshirt1.jpeg", inStock := true }

/-- Product "mug-white" from the catalog: no `sizes` field. -/
def mugWhite : Product :=
  { id := "mug-white", name := "Unicity White Mug"
    description := "Ceramic mug with Unicity logo, 350ml"
    category := "mug", price := 15 * UCT
    sizes := none, image := "unicity_mug1.jpeg", inStock := true }

/-- Product "mug-black" from the catalog: no `sizes` field. -/
def mugBlack : Product :=
  { id := "mug-black", name := "Unicity Black Mug"
    description := "Black ceramic mug with Unicity branding, 350ml"
    category := "mug", price := 15 * UCT
    sizes := none, image := "unicity_mug2.jpeg", inStock := true }

/-- The PRODUCTS record from catalog.ts, keyed by product id. -/
def PRODUCTS : List (String × Product) :=
  [("tshirt-unicity", tshirtUnicity), ("mug-white", mugWhite), ("mug-black", mugBlack)]

/-! NostrService (src/unnamed/part_001), the eager-registration version. -/

/-- PendingPayment record (part_001 lines 21-30). The `resolve` field is a
closure over one or more promise resolvers: initially the resolver created
in `sendPaymentRequest`, possibly wrapped by `waitForExistingPayment` to
also resolve further promises. It is modelled as the list of promise ids
the closure chain resolves, in invocation order (original first). -/
structure PendingPayment where
  eventId : String
  unicityId : String
  userPubkey : String
  orderId : String
  amount : Int
  coinId : String
  createdAt : Nat
  resolveTargets : List Nat
deriving DecidableEq

/-- Abstraction of an inbound Nostr event as seen by
`handleIncomingTransfer`: the protocol-collaborator observations the
handler branches on. `parseOk` stands for "parseTokenTransfer yielded valid
JSON containing sourceToken"; `processOk` for "processTokenTransfer (and
finalizeTransfer) returned true". -/
structure TransferEvent where
  isTokenTransfer : Bool
  sender : String
  replyToEventId : Option String
  parseOk : Bool
  processOk : Bool
deriving DecidableEq

/-- State of a `NostrService` together with its promises and the JavaScript
microtask queue. `promises` maps a promise id to its settled value
(`none` while unsettled); resolving enqueues a waiter notification on
`queue`, and notifications move to `delivered` only between synchronous
blocks, which is when `.then` continuations actually run. -/
structure NostrState where
  pendingPayments : List (String × PendingPayment)
  promises : List (Nat × Option Bool)
  queue : List (Nat × Bool)
  delivered : List (Nat × Bool)
  nextPromise : Nat
  orderSvc : OrderServiceState
deriving DecidableEq

/-- Freshly constructed service state. -/
def initState : NostrState :=
  { pendingPayments := [], promises := [], queue := [], delivered := []
    nextPromise := 0, orderSvc := emptyOrderService }

/-- Value of a promise: `none` while pending, `some b` once resolved. -/
def promiseValue (s : NostrState) (pid : Nat) : Option Bool :=
  match assocGet s.promises pid with
  | some v => v
  | none => none

/-- Resolving a single JavaScript promise: single-assignment — if the
promise is still unsettled it takes the value and its waiters are scheduled
on the microtask queue; resolving an already-settled (or unknown) promise
is a no-op. -/
def resolvePromise (s : NostrState) (pid : Nat) (b : Bool) : NostrState :=
  match assocGet s.promises pid with
  | some none =>
    { s with promises := assocSet s.promises pid (some b)
             queue := s.queue ++ [(pid, b)] }
  | _ => s

/-- Resolving a list of promises in order (the `resolve` closure chain of a
pending entry). -/
def resolveMany (s : NostrState) (l : List Nat) (b : Bool) : NostrState :=
  l.foldl (fun st pid => resolvePromise st pid b) s

/-- Calling `pending.resolve(b)`: resolves every promise in the entry's
resolver chain. -/
def resolveEntry (s : NostrState) (p : PendingPayment) (b : Bool) : NostrState :=
  resolveMany s p.resolveTargets b

/-- Delivery of the next queued waiter notification — a separate event-loop
step that only runs after the current synchronous block has finished. -/
def deliverNext (s : NostrState) : NostrState :=
  match s.queue with
  | [] => s
  | n :: rest => { s with queue := rest, delivered := s.delivered ++ [n] }

/-- Registration part of NostrService.sendPaymentRequest (part_001 lines
399-421): after the outbound send yields `eventId`, the order is linked,
a deferred promise is created and the pending entry is registered
immediately. Returns the promise id that `waitForPayment` awaits. -/
def sendPaymentRequest (s : NostrState) (eventId unicityId userPubkey orderId : String)
    (amount : Int) (coinId : String) (now : Nat) : Nat × NostrState :=
  let s1 := { s with orderSvc := linkPaymentToOrder s.orderSvc eventId orderId }
  let pid := s1.nextPromise
  let pending : PendingPayment :=
    { eventId := eventId, unicityId := unicityId, userPubkey := userPubkey
      orderId := orderId, amount := amount, coinId := coinId
      createdAt := now, resolveTargets := [pid] }
  (pid, { s1 with
            promises := s1.promises ++ [(pid, none)]
            nextPromise := pid + 1
            pendingPayments := assocSet s1.pendingPayments eventId pending })

/-- The timeout timer armed by sendPaymentRequest (part_001 lines 424-430):
if the entry is still registered, it is deleted and then the ORIGINAL
resolver captured at registration (`resolvePayment`, here `timerPid`) is
invoked with `false` — the timer does not go through the possibly-wrapped
`pending.resolve`. If the entry is gone the timer does nothing. -/
def timeoutFire (s : NostrState) (eventId : String) (timerPid : Nat) : NostrState :=
  match assocGet s.pendingPayments eventId with
  | some _ =>
    resolvePromise
      { s with pendingPayments := assocDelete s.pendingPayments eventId }
      timerPid false
  | none => s

/-- NostrService.getPendingPaymentForOrder (part_001 lines 446-453). -/
def getPendingPaymentForOrder (s : NostrState) (orderId : String) : Option String :=
  (s.pendingPayments.find? (fun kp => kp.2.orderId = orderId)).map Prod.fst

/-- NostrService.waitForExistingPayment (part_001 lines 459-473): if the
entry exists, a new promise is created and `pending.resolve` is replaced by
a wrapper resolving the original chain first and then the new promise. -/
def waitForExistingPayment (s : NostrState) (eventId : String) :
    Option Nat × NostrState :=
  match assocGet s.pendingPayments eventId with
  | none => (none, s)
  | some p =>
    let pid := s.nextPromise
    let p2 := { p with resolveTargets := p.resolveTargets ++ [pid] }
    (some pid,
     { s with promises := s.promises ++ [(pid, none)]
              nextPromise := pid + 1
              pendingPayments := assocSet s.pendingPayments eventId p2 })

/-- The first-by-insertion-order scan of the sender-pubkey fallback in
handleIncomingTransfer (part_001 lines 162-175): iterate the pending map in
insertion order and take the first entry whose `userPubkey` equals the
event's sender. -/
def findByPubkey : List (String × PendingPayment) → String →
    Option (String × PendingPayment)
  | [], _ => none
  | kp :: rest, sender =>
    if kp.2.userPubkey = sender then some kp else findByPubkey rest sender

/-- Correlation strategy of handleIncomingTransfer (part_001 lines
140-175): if the event carries a replyToEventId that is a key of the
pending map, that entry is chosen; otherwise fall back to the first
insertion-order entry with the sender's pubkey. -/
def matchPending (pendings : List (String × PendingPayment))
    (replyTo : Option String) (sender : String) :
    Option (String × PendingPayment) :=
  match replyTo with
  | some r =>
    match assocGet pendings r with
    | some p => some (r, p)
    | none => findByPubkey pendings sender
  | none => findByPubkey pendings sender

/-- The settlement block handleIncomingTransfer runs once it holds a
matched entry (part_001 lines 189-218): on success `markAsPaid` then
`pending.resolve(true)` then delete; on failure `pending.resolve(false)`
then delete. The whole block is synchronous (no await inside), hence one
atomic step; queued waiter notifications are delivered afterwards. -/
def settleMatched (s : NostrState) (key : String) (p : PendingPayment)
    (outcome : Bool) (now : Nat) : NostrState :=
  if outcome then
    let s1 := { s with orderSvc := (markAsPaid s.orderSvc p.orderId now).2 }
    let s2 := resolveEntry s1 p true
    { s2 with pendingPayments := assocDelete s2.pendingPayments key }
  else
    let s2 := resolveEntry s p false
    { s2 with pendingPayments := assocDelete s2.pendingPayments key }

/-- NostrService.handleIncomingTransfer (part_001 lines 118-222), with the
external-collaborator results abstracted into the event record: non
transfer events are ignored; then correlation, then the settlement block
(`parseOk = false` is the invalid-format/JSON-failure path, which resolves
`false`; otherwise the outcome is `processOk`). Unmatched events are
dropped with no state change. -/
def handleIncomingTransfer (s : NostrState) (e : TransferEvent) (now : Nat) :
    NostrState :=
  if e.isTokenTransfer then
    match matchPending s.pendingPayments e.replyToEventId e.sender with
    | some (key, p) =>
      if e.parseOk then settleMatched s key p e.processOk now
      else settleMatched s key p false now
    | none => s
  else s

/-! Tool handlers (src/unnamed/part_000). -/

/-- Error outcomes of the place_order tool handler, in the order the code
checks them. `invalidQuantity` is rejection by the zod input schema
(`z.number().int().min(1).max(10)`), which runs before the handler body. -/
inductive PlaceOrderError
  | invalidQuantity
  | identityNotFound
  | productNotFound
  | outOfStock
  | sizeRequired
  | sizeUnavailable
deriving DecidableEq

/-- The place_order tool handler (part_000 lines 576-691) up to and
including order creation. `pubkey` is the result of `resolvePubkey`;
`quantity` is the raw integer offered to the zod schema. The size checks
mirror the code: `if (product.sizes && !size)` then size-required;
`if (product.sizes && size && !product.sizes.includes(size))` then
size-unavailable; otherwise `createOrder` runs. The outbound payment
request that follows is not part of this function. -/
def placeOrder (s : OrderServiceState) (products : List (String × Product))
    (pubkey : Option String) (productId : String) (quantity : Int)
    (size : Option TShirtSize) (orderId : String) (now : Nat)
    (unicityId : String) :
    Except PlaceOrderError (Order × OrderServiceState) :=
  if quantity < 1 ∨ 10 < quantity then Except.error PlaceOrderError.invalidQuantity
  else
    match pubkey with
    | none => Except.error PlaceOrderError.identityNotFound
    | some _ =>
      match assocGet products productId with
      | none => Except.error PlaceOrderError.productNotFound
      | some product =>
        if product.inStock = false then Except.error PlaceOrderError.outOfStock
        else
          match product.sizes, size with
          | some _, none => Except.error PlaceOrderError.sizeRequired
          | some szs, some sz =>
            if sz ∈ szs then
              Except.ok (createOrder s orderId now unicityId product quantity size)
            else Except.error PlaceOrderError.sizeUnavailable
          | none, _ =>
            Except.ok (createOrder s orderId now unicityId product quantity size)

/-- Projection of a place_order result to the created order, if any. -/
def placedOrder : Except PlaceOrderError (Order × OrderServiceState) → Option Order
  | Except.ok (o, _) => some o
  | Except.error _ => none

/-- The confirm_order tool handler (part_000 lines 702-778) for an order
that exists, belongs to the caller, and is still `pending_payment`: it
unconditionally re-sends a payment request (obtaining a fresh `newEventId`
from the transport) and registers a new pending entry via
`sendPaymentRequest`; there is no lookup of an existing live entry. The
error and already-paid early returns are collapsed to `none` (no resend,
state unchanged). Returns the fresh event id, the awaited promise id and
the new state. -/
def confirmOrder (s : NostrState) (unicityId userPubkey orderId newEventId coinId : String)
    (now : Nat) : Option (String × Nat × NostrState) :=
  match assocGet s.orderSvc.orders orderId with
  | none => none
  | some o =>
    if o.unicityId ≠ unicityId then none
    else if o.status ≠ OrderStatus.pending_payment then none
    else
      some (newEventId,
            sendPaymentRequest s newEventId unicityId userPubkey orderId
              o.totalPrice coinId now)

/-- Number of live pending entries registered for one order. -/
def pendingCountForOrder (s : NostrState) (orderId : String) : Nat :=
  (s.pendingPayments.filter (fun kp => kp.2.orderId = orderId)).length

/-! The second NostrService version (src/unnamed/part_002). Its
handleIncomingTransfer, matching and settlement code is identical to
part_001; it differs in sendPaymentRequest, which performs no registration
— the pending entry is created (with its timer) only when the returned
`waitForPayment` closure is invoked. -/

/-- sendPaymentRequest of the part_002 version (lines 284-333): sends,
links the payment to the order — and registers nothing. -/
def sendPaymentRequestV2 (s : NostrState) (eventId orderId : String) : NostrState :=
  { s with orderSvc := linkPaymentToOrder s.orderSvc eventId orderId }

/-- Invocation of the `waitForPayment` closure returned by the part_002
sendPaymentRequest (lines 308-330): only now is the promise created and
the pending entry registered (and the timeout armed). Returns the awaited
promise id. -/
def waitForPaymentInvokeV2 (s : NostrState)
    (eventId unicityId userPubkey orderId : String) (amount : Int)
    (coinId : String) (now : Nat) : Nat × NostrState :=
  let pid := s.nextPromise
  let pending : PendingPayment :=
    { eventId := eventId, unicityId := unicityId, userPubkey := userPubkey
      orderId := orderId, amount := amount, coinId := coinId
      createdAt := now, resolveTargets := [pid] }
  (pid, { s with
            promises := s.promises ++ [(pid, none)]
            nextPromise := pid + 1
            pendingPayments := assocSet s.pendingPayments eventId pending })

/-! Lemmas about promise resolution and the matcher. -/

theorem promiseValue_of_get {s : NostrState} {pid : Nat} {w : Option Bool}
    (h : assocGet s.promises pid = some w) : promiseValue s pid = w := by
  unfold promiseValue; rw [h]

theorem resolvePromise_frame (s : NostrState) (q : Nat) (b : Bool) :
    (resolvePromise s q b).pendingPayments = s.pendingPayments ∧
    (resolvePromise s q b).delivered = s.delivered ∧
    (resolvePromise s q b).orderSvc = s.orderSvc ∧
    (resolvePromise s q b).nextPromise = s.nextPromise := by
  unfold resolvePromise
  rcases hq : assocGet s.promises q with _ | _ | _ <;>
    exact ⟨rfl, rfl, rfl, rfl⟩

theorem promGet_resolve_ne {s : NostrState} {pid q : Nat} (b : Bool)
    (h : pid ≠ q) :
    assocGet (resolvePromise s q b).promises pid = assocGet s.promises pid := by
  unfold resolvePromise
  rcases hq : assocGet s.promises q with _ | _ | _
  · rfl
  · exact assocGet_assocSet_ne s.promises q pid (some b) h
  · rfl

theorem promGet_resolve_settled {s : NostrState} {pid : Nat} {v : Bool} (q : Nat) (b : Bool)
    (h : assocGet s.promises pid = some (some v)) :
    assocGet (resolvePromise s q b).promises pid = some (some v) := by
  by_cases hpq : pid = q
  · subst hpq
    unfold resolvePromise
    rw [h]
    exact h
  · rw [promGet_resolve_ne b hpq]; exact h

theorem promGet_resolve_self {s : NostrState} {pid : Nat} (b : Bool)
    (h : assocGet s.promises pid = some none) :
    assocGet (resolvePromise s pid b).promises pid = some (some b) := by
  unfold resolvePromise
  rw [h]
  exact assocGet_assocSet_self s.promises pid (some b)

theorem resolveMany_cons (s : NostrState) (a : Nat) (l : List Nat) (b : Bool) :
    resolveMany s (a :: l) b = resolveMany (resolvePromise s a b) l b := rfl

theorem resolveMany_frame (l : List Nat) (b : Bool) : ∀ s : NostrState,
    (resolveMany s l b).pendingPayments = s.pendingPayments ∧
    (resolveMany s l b).delivered = s.delivered ∧
    (resolveMany s l b).orderSvc = s.orderSvc := by
  induction l with
  | nil => intro s; exact ⟨rfl, rfl, rfl⟩
  | cons a l ih =>
    intro s
    rw [resolveMany_cons]
    rcases ih (resolvePromise s a b) with ⟨h1, h2, h3⟩
    rcases resolvePromise_frame s a b with ⟨g1, g2, g3, _⟩
    exact ⟨h1.trans g1, h2.trans g2, h3.trans g3⟩

theorem promGet_resolveMany_settled (l : List Nat) (b : Bool) :
    ∀ (s : NostrState) (pid : Nat) (v : Bool),
    assocGet s.promises pid = some (some v) →
    assocGet (resolveMany s l b).promises pid = some (some v) := by
  induction l with
  | nil => intro s pid v h; exact h
  | cons a l ih =>
    intro s pid v h
    rw [resolveMany_cons]
    exact ih _ pid v (promGet_resolve_settled a b h)

theorem promGet_resolveMany_notMem (l : List Nat) (b : Bool) :
    ∀ (s : NostrState) (pid : Nat), pid ∉ l →
    assocGet (resolveMany s l b).promises pid = assocGet s.promises pid := by
  induction l with
  | nil => intro s pid _; rfl
  | cons a l ih =>
    intro s pid h
    rw [resolveMany_cons]
    have ha : pid ≠ a := fun he => h (he ▸ List.mem_cons_self a l)
    rw [ih _ pid (fun hm => h (List.mem_cons_of_mem a hm))]
    exact promGet_resolve_ne b ha

theorem promGet_resolveMany_mem (l : List Nat) (b : Bool) :
    ∀ (s : NostrState) (pid : Nat), pid ∈ l →
    assocGet s.promises pid = some none →
    assocGet (resolveMany s l b).promises pid = some (some b) := by
  induction l with
  | nil => intro s pid h; exact absurd h (List.not_mem_nil pid)
  | cons a l ih =>
    intro s pid hmem h
    rw [resolveMany_cons]
    by_cases hpa : pid = a
    · subst hpa
      exact promGet_resolveMany_settled l b _ pid b (promGet_resolve_self b h)
    · have hl : pid ∈ l := by
        rcases List.mem_cons.mp hmem with h1 | h1
        · exact absurd h1 hpa
        · exact h1
      exact ih _ pid hl ((promGet_resolve_ne b hpa).trans h)

theorem findByPubkey_mem {l : List (String × PendingPayment)} {sender : String}
    {kp : String × PendingPayment} (h : findByPubkey l sender = some kp) :
    kp ∈ l ∧ kp.2.userPubkey = sender := by
  induction l with
  | nil => exact absurd h (by simp [findByPubkey])
  | cons a rest ih =>
    by_cases ha : a.2.userPubkey = sender
    · rw [show findByPubkey (a :: rest) sender = some a by
        simp only [findByPubkey, if_pos ha]] at h
      cases h
      exact ⟨List.mem_cons_self _ _, ha⟩
    · rw [show findByPubkey (a :: rest) sender = findByPubkey rest sender by
        simp only [findByPubkey, if_neg ha]] at h
      rcases ih h with ⟨hm, hp⟩
      exact ⟨List.mem_cons_of_mem _ hm, hp⟩

theorem findByPubkey_isSome {l : List (String × PendingPayment)} {sender : String}
    (h : ∃ kp ∈ l, kp.2.userPubkey = sender) :
    (findByPubkey l sender).isSome = true := by
  induction l with
  | nil => rcases h with ⟨kp, hm, _⟩; exact absurd hm (List.not_mem_nil kp)
  | cons a rest ih =>
    by_cases ha : a.2.userPubkey = sender
    · rw [show findByPubkey (a :: rest) sender = some a by
        simp only [findByPubkey, if_pos ha]]
      rfl
    · rw [show findByPubkey (a :: rest) sender = findByPubkey rest sender by
        simp only [findByPubkey, if_neg ha]]
      rcases h with ⟨kp, hm, hp⟩
      rcases List.mem_cons.mp hm with h1 | h1
      · exact absurd (h1 ▸ hp) ha
      · exact ih ⟨kp, h1, hp⟩

theorem not_mem_key_of_assocGet_none [DecidableEq κ] {l : List (κ × α)} {k : κ}
    (h : assocGet l k = none) : ∀ x ∈ l, x.1 ≠ k := by
  induction l with
  | nil => intro x hx; exact absurd hx (List.not_mem_nil x)
  | cons p rest ih =>
    intro x hx
    by_cases hp : p.1 = k
    · rw [show assocGet (p :: rest) k = some p.2 by
        simp only [assocGet, if_pos hp]] at h
      exact absurd h (by simp)
    · rw [show assocGet (p :: rest) k = assocGet rest k by
        simp only [assocGet, if_neg hp]] at h
      rcases List.mem_cons.mp hx with h1 | h1
      · rw [h1]; exact hp
      · exact ih h x h1

theorem matchPending_avoid {l : List (String × PendingPayment)} {key : String}
    (sender : String) (h : assocGet l key = none) :
    ∀ k' p', matchPending l (some key) sender = some (k', p') → k' ≠ key := by
  intro k' p' hm
  have e : matchPending l (some key) sender = findByPubkey l sender := by
    show (match assocGet l key with
          | some p => some (key, p)
          | none => findByPubkey l sender) = findByPubkey l sender
    rw [h]
  rw [e] at hm
  rcases findByPubkey_mem hm with ⟨hmem, _⟩
  exact not_mem_key_of_assocGet_none h (k', p') hmem

theorem settleMatched_pendingPayments (s : NostrState) (key : String)
    (p : PendingPayment) (outcome : Bool) (now : Nat) :
    (settleMatched s key p outcome now).pendingPayments =
      assocDelete s.pendingPayments key := by
  cases outcome
  · show assocDelete (resolveMany s p.resolveTargets false).pendingPayments key =
      assocDelete s.pendingPayments key
    rw [(resolveMany_frame p.resolveTargets false s).1]
  · show assocDelete
      (resolveMany { s with orderSvc := (markAsPaid s.orderSvc p.orderId now).2 }
        p.resolveTargets true).pendingPayments key = assocDelete s.pendingPayments key
    rw [(resolveMany_frame p.resolveTargets true _).1]

theorem settleMatched_delivered (s : NostrState) (key : String)
    (p : PendingPayment) (outcome : Bool) (now : Nat) :
    (settleMatched s key p outcome now).delivered = s.delivered := by
  cases outcome
  · show (resolveMany s p.resolveTargets false).delivered = s.delivered
    exact (resolveMany_frame p.resolveTargets false s).2.1
  · show (resolveMany { s with orderSvc := (markAsPaid s.orderSvc p.orderId now).2 }
      p.resolveTargets true).delivered = s.delivered
    exact (resolveMany_frame p.resolveTargets true _).2.1

theorem resolvePromise_promises_congr {s s' : NostrState}
    (h : s.promises = s'.promises) (a : Nat) (b : Bool) :
    (resolvePromise s a b).promises = (resolvePromise s' a b).promises := by
  unfold resolvePromise
  rw [h]
  cases hg : assocGet s'.promises a with
  | none => exact h
  | some w =>
    cases w with
    | none => rfl
    | some v => exact h

theorem resolveMany_promises_congr (l : List Nat) (b : Bool) :
    ∀ {s s' : NostrState}, s.promises = s'.promises →
    (resolveMany s l b).promises = (resolveMany s' l b).promises := by
  induction l with
  | nil => intro s s' h; exact h
  | cons a l ih =>
    intro s s' h
    rw [resolveMany_cons, resolveMany_cons]
    exact ih (resolvePromise_promises_congr h a b)

theorem settleMatched_promGet (s : NostrState) (key : String) (p : PendingPayment)
    (outcome : Bool) (now : Nat) (q : Nat) :
    assocGet (settleMatched s key p outcome now).promises q =
      assocGet (resolveMany s p.resolveTargets outcome).promises q := by
  cases outcome
  · rfl
  · show assocGet
      (resolveMany { s with orderSvc := (markAsPaid s.orderSvc p.orderId now).2 }
        p.resolveTargets true).promises q =
      assocGet (resolveMany s p.resolveTargets true).promises q
    rw [resolveMany_promises_congr p.resolveTargets true
      (show ({ s with orderSvc := (markAsPaid s.orderSvc p.orderId now).2 } :
          NostrState).promises = s.promises from rfl)]

theorem timeoutFire_of_absent (s : NostrState) (key : String) (pid : Nat)
    (h : assocGet s.pendingPayments key = none) : timeoutFire s key pid = s := by
  unfold timeoutFire
  rw [h]

theorem timeoutFire_eq (s : NostrState) (key : String) (pid : Nat) {p : PendingPayment}
    (h : assocGet s.pendingPayments key = some p) :
    timeoutFire s key pid =
      resolvePromise { s with pendingPayments := assocDelete s.pendingPayments key }
        pid false := by
  unfold timeoutFire
  rw [h]

theorem findByPubkey_earliest {l : List (String × PendingPayment)} {sender : String}
    (hpw : List.Pairwise
      (fun a b : String × PendingPayment => a.2.createdAt ≤ b.2.createdAt) l)
    {k : String} {p : PendingPayment} (h : findByPubkey l sender = some (k, p)) :
    ∀ k' p', (k', p') ∈ l → p'.userPubkey = sender → p.createdAt ≤ p'.createdAt := by
  induction l with
  | nil => exact absurd h (by simp [findByPubkey])
  | cons a rest ih =>
    by_cases ha : a.2.userPubkey = sender
    · rw [show findByPubkey (a :: rest) sender = some a by
        simp only [findByPubkey, if_pos ha]] at h
      cases h
      intro k' p' hm _
      rcases List.mem_cons.mp hm with h1 | h1
      · injection h1 with e1 e2
        subst e2
        exact le_refl _
      · exact (List.pairwise_cons.mp hpw).1 (k', p') h1
    · rw [show findByPubkey (a :: rest) sender = findByPubkey rest sender by
        simp only [findByPubkey, if_neg ha]] at h
      intro k' p' hm hp
      rcases List.mem_cons.mp hm with h1 | h1
      · exact absurd ((congrArg (fun x => x.2.userPubkey) h1.symm).trans hp) ha
      · exact ih (List.pairwise_cons.mp hpw).2 h k' p' h1 hp

/-! Concrete states used to exercise the theorems: an order of 2 white mugs
(2 x 15 UCT = 30 UCT) for "alice" (pubkey "pk1"), a registered payment
request "e1", and a few handcrafted registry entries. -/

/-- OrderService after "alice" orders 2 white mugs (order "ord1"). -/
def demoOrderSvc : OrderServiceState :=
  (createOrder emptyOrderService "ord1" 0 "alice" mugWhite 2 none).2

/-- NostrState holding the demo order, before any payment request. -/
def demoBase : NostrState := { initState with orderSvc := demoOrderSvc }

/-- Registry entry as registered by `sendPaymentRequest demoBase "e1" ...`. -/
def demoPending : PendingPayment :=
  { eventId := "e1", unicityId := "alice", userPubkey := "pk1"
    orderId := "ord1", amount := 30 * UCT, coinId := "c"
    createdAt := 1, resolveTargets := [0] }

/-- State after the payment request "e1" has been sent and registered
(promise 0 is the original waiter). -/
def demoReg : NostrState :=
  (sendPaymentRequest demoBase "e1" "alice" "pk1" "ord1" (30 * UCT) "c" 1).2

/-- demoReg after a second waiter has been attached with
`waitForExistingPayment` (promise 1). -/
def demoAttached : NostrState := (waitForExistingPayment demoReg "e1").2

/-- The entry of demoAttached: resolver chain now [0, 1]. -/
def demoPendingAttached : PendingPayment :=
  { demoPending with resolveTargets := [0, 1] }

/-- A matching inbound transfer event answering request "e1" from "pk1",
with valid payload and successful finalization. -/
def goodEvent : TransferEvent :=
  { isTokenTransfer := true, sender := "pk1", replyToEventId := some "e1"
    parseOk := true, processOk := true }

/-- Handcrafted entry: request "e1" to counterparty "pkA". -/
def pA : PendingPayment :=
  { eventId := "e1", unicityId := "alice", userPubkey := "pkA", orderId := "o1"
    amount := 1, coinId := "c", createdAt := 0, resolveTargets := [0] }

/-- Handcrafted entry: request "e2" to counterparty "pkB". -/
def pB : PendingPayment :=
  { eventId := "e2", unicityId := "bob", userPubkey := "pkB", orderId := "o2"
    amount := 2, coinId := "c", createdAt := 1, resolveTargets := [1] }

/-- Handcrafted entry: a later request "e3" to the same counterparty "pkA". -/
def pC : PendingPayment :=
  { eventId := "e3", unicityId := "alice", userPubkey := "pkA", orderId := "o3"
    amount := 3, coinId := "c", createdAt := 5, resolveTargets := [2] }

/-- Registry with a reply-reference match ("e2") and a distinct
counterparty match ("e1" by pubkey "pkA") both live. -/
def twoPendings : List (String × PendingPayment) := [("e1", pA), ("e2", pB)]

/-- Registry with two live entries for the same counterparty "pkA",
"e1" registered (and created) before "e3". -/
def samePkPendings : List (String × PendingPayment) := [("e1", pA), ("e3", pC)]

/-- Service state carrying `samePkPendings` with unsettled promises. -/
def samePkState : NostrState :=
  { initState with pendingPayments := samePkPendings
                   promises := [(0, none), (1, none), (2, none)]
                   nextPromise := 3 }

/-! Claim theorems. -/

/-- C9: for every product, quantity and state, the order returned by
`createOrder` (and the copy stored in the orders map) has
`totalPrice = product.price * quantity`, computed exactly in unbounded
integer arithmetic (the embedding of the bigint computation
`product.price * BigInt(quantity)`), with no rounding. -/
theorem createOrder_totalPrice (s : OrderServiceState) (orderId : String) (now : Nat)
    (unicityId : String) (product : Product) (quantity : Int)
    (size : Option TShirtSize) :
    (createOrder s orderId now unicityId product quantity size).1.totalPrice =
      product.price * quantity ∧
    assocGet (createOrder s orderId now unicityId product quantity size).2.orders
        orderId =
      some (createOrder s orderId now unicityId product quantity size).1 := by
  exact ⟨rfl, assocGet_assocSet_self _ _ _⟩

/-- C2 counterexample: `markAsPaid` has no status guard, so calling it on an
order that is already `shipped` moves the status backwards to `paid` instead
of leaving it unchanged: after createOrder, markAsPaid, markAsShipped the
demo order is `shipped`, and one more out-of-sequence markAsPaid yields
`paid`, not `shipped`. -/
theorem markAsPaid_backward_counterexample :
    (getOrder (markAsShipped (markAsPaid demoOrderSvc "ord1" 1).2 "ord1").2
        "ord1").map Order.status = some OrderStatus.shipped ∧
    (getOrder (markAsPaid
        (markAsShipped (markAsPaid demoOrderSvc "ord1" 1).2 "ord1").2
        "ord1" 2).2 "ord1").map Order.status = some OrderStatus.paid ∧
    some OrderStatus.paid ≠ some OrderStatus.shipped := by
  refine ⟨by decide, by decide, by decide⟩

/-- C2 (amended): `markAsShipped` moves the status forward only, from `paid`
to `shipped`, and leaves the order and state unchanged for any other status
(and when the order is absent); `markAsPaid`, however, sets the status to
`paid` and stamps `paidAt` unconditionally whenever the order exists, so it
can move an order backwards from `shipped`/`delivered`; the claimed
forward-only property holds for all `markAsShipped` calls but not for
`markAsPaid` calls on orders past `paid`. -/
theorem markTransitions (s : OrderServiceState) (orderId : String) (now : Nat) :
    (∀ o, assocGet s.orders orderId = some o → o.status ≠ OrderStatus.paid →
      markAsShipped s orderId = (some o, s)) ∧
    (assocGet s.orders orderId = none →
      markAsShipped s orderId = (none, s) ∧ markAsPaid s orderId now = (none, s)) ∧
    (∀ o, assocGet s.orders orderId = some o → o.status = OrderStatus.paid →
      markAsShipped s orderId =
        (some { o with status := OrderStatus.shipped },
         { s with orders := assocSet s.orders orderId ({ o with status := OrderStatus.shipped }) })) ∧
    (∀ o, assocGet s.orders orderId = some o →
      markAsPaid s orderId now =
        (some { o with status := OrderStatus.paid, paidAt := some now },
         { s with orders := assocSet s.orders orderId ({ o with status := OrderStatus.paid, paidAt := some now }) })) := by
  refine ⟨?_, ?_, ?_, ?_⟩
  · intro o h hne
    unfold markAsShipped
    rw [h]
    exact if_neg hne
  · intro h
    constructor
    · unfold markAsShipped; rw [h]
    · unfold markAsPaid; rw [h]
  · intro o h hpaid
    unfold markAsShipped
    rw [h]
    exact if_pos hpaid
  · intro o h
    unfold markAsPaid
    rw [h]

/-- Witness for the amended C2 theorem at the demo order: markAsPaid on the
freshly created (pending_payment) order stamps it paid at time 5. -/
theorem markTransitions_witness :
    markAsPaid demoOrderSvc "ord1" 5 =
      (some { (createOrder emptyOrderService "ord1" 0 "alice" mugWhite 2 none).1 with
                status := OrderStatus.paid, paidAt := some 5 },
       { demoOrderSvc with orders := assocSet demoOrderSvc.orders "ord1" ({ (createOrder emptyOrderService "ord1" 0 "alice" mugWhite 2 none).1 with status := OrderStatus.paid, paidAt := some 5 }) }) :=
  (markTransitions demoOrderSvc "ord1" 5).2.2.2
    (createOrder emptyOrderService "ord1" 0 "alice" mugWhite 2 none).1 (by decide)

/-- C4: correlation tries the reply-reference first — if the event carries a
replyToEventId that keys a live entry, that entry is chosen regardless of
any counterparty match; the sender-pubkey fallback runs exactly when there
is no reply-reference or the reply-reference hits no live entry. -/
theorem matchPending_replyFirst (pendings : List (String × PendingPayment))
    (r sender : String) :
    (∀ p, assocGet pendings r = some p →
      matchPending pendings (some r) sender = some (r, p)) ∧
    (assocGet pendings r = none →
      matchPending pendings (some r) sender = findByPubkey pendings sender) ∧
    matchPending pendings none sender = findByPubkey pendings sender := by
  refine ⟨?_, ?_, rfl⟩
  · intro p h
    show (match assocGet pendings r with
          | some p => some (r, p)
          | none => findByPubkey pendings sender) = some (r, p)
    rw [h]
  · intro h
    show (match assocGet pendings r with
          | some p => some (r, p)
          | none => findByPubkey pendings sender) = findByPubkey pendings sender
    rw [h]

/-- Witness for C4 on a registry where both kinds of match exist: the event
replies to "e2" but its sender "pkA" is the counterparty of "e1"; the
reply-reference entry "e2" is chosen. -/
theorem matchPending_replyFirst_witness :
    matchPending twoPendings (some "e2") "pkA" = some ("e2", pB) :=
  (matchPending_replyFirst twoPendings "e2" "pkA").1 pB (by decide)

/-- C5: when the counterparty fallback runs (no reply-reference, or a
reply-reference that hits no live entry) and the registry's insertion order
is creation order (createdAt nondecreasing along the list, as produced by
registration with a monotone clock), the matcher selects a live entry of
the event's sender, and it is the earliest-created one among them; it finds
one whenever one exists. -/
theorem matchPending_fallback_earliest (pendings : List (String × PendingPayment))
    (replyTo : Option String) (sender : String)
    (hpw : List.Pairwise
      (fun a b : String × PendingPayment => a.2.createdAt ≤ b.2.createdAt) pendings)
    (hfb : match replyTo with
           | some r => assocGet pendings r = none
           | none => True) :
    ((∃ kp ∈ pendings, kp.2.userPubkey = sender) →
      (matchPending pendings replyTo sender).isSome = true) ∧
    (∀ k p, matchPending pendings replyTo sender = some (k, p) →
      p.userPubkey = sender ∧ (k, p) ∈ pendings ∧
      ∀ k' p', (k', p') ∈ pendings → p'.userPubkey = sender →
        p.createdAt ≤ p'.createdAt) := by
  have hmp : matchPending pendings replyTo sender = findByPubkey pendings sender := by
    cases replyTo with
    | none => rfl
    | some r =>
      have hfb' : assocGet pendings r = none := hfb
      show (match assocGet pendings r with
            | some p => some (r, p)
            | none => findByPubkey pendings sender) = findByPubkey pendings sender
      rw [hfb']
  constructor
  · intro hex
    rw [hmp]
    exact findByPubkey_isSome hex
  · intro k p h
    rw [hmp] at h
    rcases findByPubkey_mem h with ⟨hm, hp⟩
    exact ⟨hp, hm, findByPubkey_earliest hpw h⟩

/-- Witness for C5: with two live entries for counterparty "pkA" ("e1"
created at 0, "e3" created at 5) and a reply-reference that hits nothing,
the fallback picks "e1", whose creation time is at most "e3"'s. -/
theorem matchPending_fallback_earliest_witness :
    matchPending samePkPendings (some "zz") "pkA" = some ("e1", pA) ∧
    pA.createdAt ≤ pC.createdAt :=
  ⟨by decide,
   ((matchPending_fallback_earliest samePkPendings (some "zz") "pkA"
      (by decide) (by decide)).2 "e1" pA (by decide)).2.2 "e3" pC (by decide)
      (by decide)⟩

/-- C6: on every settlement — match-path success or failure
(`settleMatched`) as well as timeout (`timeoutFire`) — the entry is removed
from the registry within the same atomic synchronous block, while waiter
notifications are still only queued (nothing new is `delivered`), so every
waiter runs only after removal; consequently a duplicate event carrying the
settled entry's id as reply-reference can never re-match that entry (any
match it still finds is a different key). -/
theorem settle_removesBeforeNotify (s : NostrState) (key : String)
    (p : PendingPayment) (outcome : Bool) (now : Nat) (timerPid : Nat) :
    assocGet (settleMatched s key p outcome now).pendingPayments key = none ∧
    (settleMatched s key p outcome now).delivered = s.delivered ∧
    assocGet (timeoutFire s key timerPid).pendingPayments key = none ∧
    (timeoutFire s key timerPid).delivered = s.delivered ∧
    (∀ sender k' p',
      matchPending (settleMatched s key p outcome now).pendingPayments
        (some key) sender = some (k', p') → k' ≠ key) ∧
    (∀ sender k' p',
      matchPending (timeoutFire s key timerPid).pendingPayments
        (some key) sender = some (k', p') → k' ≠ key) := by
  have hsm : assocGet (settleMatched s key p outcome now).pendingPayments key = none := by
    rw [settleMatched_pendingPayments]
    exact assocGet_assocDelete_self _ _
  have htm : assocGet (timeoutFire s key timerPid).pendingPayments key = none := by
    cases hg : assocGet s.pendingPayments key with
    | none => rw [timeoutFire_of_absent s key timerPid hg]; exact hg
    | some q =>
      rw [timeoutFire_eq s key timerPid hg,
          (resolvePromise_frame _ timerPid false).1]
      exact assocGet_assocDelete_self _ _
  refine ⟨hsm, settleMatched_delivered s key p outcome now, htm, ?_, ?_, ?_⟩
  · cases hg : assocGet s.pendingPayments key with
    | none => rw [timeoutFire_of_absent s key timerPid hg]
    | some q =>
      rw [timeoutFire_eq s key timerPid hg]
      exact (resolvePromise_frame _ timerPid false).2.1
  · intro sender k' p' hm
    exact matchPending_avoid sender hsm k' p' hm
  · intro sender k' p' hm
    exact matchPending_avoid sender htm k' p' hm

/-- Witness for C6 at a concrete registry with two live entries for the
same counterparty: settling "e1" removes it, leaves nothing delivered yet,
and a duplicate event replying to "e1" from "pkA" can only match the other
entry "e3", never the settled "e1". -/
theorem settle_removesBeforeNotify_witness :
    assocGet (settleMatched samePkState "e1" pA true 3).pendingPayments "e1" = none ∧
    (settleMatched samePkState "e1" pA true 3).delivered = samePkState.delivered ∧
    ("e3" : String) ≠ "e1" :=
  ⟨(settle_removesBeforeNotify samePkState "e1" pA true 3 0).1,
   (settle_removesBeforeNotify samePkState "e1" pA true 3 0).2.1,
   (settle_removesBeforeNotify samePkState "e1" pA true 3 0).2.2.2.2.1
     "pkA" "e3" pC (by decide)⟩

/-- C7: a pending entry still live at timeout settles false — the original
registration promise (the only waiter of a fresh entry, and the resolver the
timer captured) receives `false` — and the entry is removed; a subsequent
inbound event carrying that entry's id as reply-reference finds no live
entry by that id and, with no other live entry for the same counterparty,
is dropped with the state unchanged; the order is untouched and remains
`pending_payment`. -/
theorem timeout_settlesFalse (s : NostrState) (ev : String) (pid : Nat)
    (p : PendingPayment) (o : Order) (e : TransferEvent) (now : Nat)
    (hk : assocGet s.pendingPayments ev = some p)
    (hprom : assocGet s.promises pid = some none)
    (hall : (s.pendingPayments.all
      (fun kq => decide (kq.2.userPubkey = e.sender → kq.1 = ev))) = true)
    (hre : e.replyToEventId = some ev)
    (ho : assocGet s.orderSvc.orders p.orderId = some o)
    (hos : o.status = OrderStatus.pending_payment) :
    promiseValue (timeoutFire s ev pid) pid = some false ∧
    assocGet (timeoutFire s ev pid).pendingPayments ev = none ∧
    handleIncomingTransfer (timeoutFire s ev pid) e now = timeoutFire s ev pid ∧
    (assocGet (handleIncomingTransfer (timeoutFire s ev pid) e now).orderSvc.orders
        p.orderId).map Order.status = some OrderStatus.pending_payment := by
  have ht := timeoutFire_eq s ev pid hk
  have hpp : (timeoutFire s ev pid).pendingPayments =
      assocDelete s.pendingPayments ev := by
    rw [ht, (resolvePromise_frame _ pid false).1]
  have h1 : promiseValue (timeoutFire s ev pid) pid = some false := by
    rw [ht]
    exact promiseValue_of_get (promGet_resolve_self false hprom)
  have h2 : assocGet (timeoutFire s ev pid).pendingPayments ev = none := by
    rw [hpp]; exact assocGet_assocDelete_self _ _
  have hnomatch : matchPending (timeoutFire s ev pid).pendingPayments
      e.replyToEventId e.sender = none := by
    rw [hre]
    cases hm : matchPending (timeoutFire s ev pid).pendingPayments
        (some ev) e.sender with
    | none => rfl
    | some kp =>
      exfalso
      have e1 : matchPending (timeoutFire s ev pid).pendingPayments (some ev)
          e.sender = findByPubkey (timeoutFire s ev pid).pendingPayments e.sender := by
        show (match assocGet (timeoutFire s ev pid).pendingPayments ev with
              | some p => some (ev, p)
              | none => findByPubkey (timeoutFire s ev pid).pendingPayments e.sender) =
            findByPubkey (timeoutFire s ev pid).pendingPayments e.sender
        rw [h2]
      rw [e1] at hm
      rcases findByPubkey_mem hm with ⟨hmem, hpk⟩
      rw [hpp] at hmem
      rcases mem_assocDelete hmem with ⟨hmemS, hne⟩
      have himp := of_decide_eq_true (List.all_eq_true.mp hall kp hmemS)
      exact hne (himp hpk)
  have h3 : handleIncomingTransfer (timeoutFire s ev pid) e now =
      timeoutFire s ev pid := by
    unfold handleIncomingTransfer
    cases hb : e.isTokenTransfer with
    | false => rw [if_neg Bool.false_ne_true]
    | true => rw [if_pos rfl, hnomatch]
  refine ⟨h1, h2, h3, ?_⟩
  rw [h3]
  have horders : (timeoutFire s ev pid).orderSvc = s.orderSvc := by
    rw [ht]
    exact (resolvePromise_frame _ pid false).2.2.1
  rw [horders, ho]
  show some o.status = some OrderStatus.pending_payment
  rw [hos]

/-- Witness for C7: the demo registration "e1" times out (promise 0 turns
false, entry removed) and the late matching event is dropped; order "ord1"
stays pending_payment. -/
theorem timeout_settlesFalse_witness :
    promiseValue (timeoutFire demoReg "e1" 0) 0 = some false ∧
    assocGet (timeoutFire demoReg "e1" 0).pendingPayments "e1" = none ∧
    handleIncomingTransfer (timeoutFire demoReg "e1" 0) goodEvent 9 =
      timeoutFire demoReg "e1" 0 ∧
    (assocGet (handleIncomingTransfer (timeoutFire demoReg "e1" 0) goodEvent
        9).orderSvc.orders "ord1").map Order.status =
      some OrderStatus.pending_payment :=
  timeout_settlesFalse demoReg "e1" 0 demoPending
    (createOrder emptyOrderService "ord1" 0 "alice" mugWhite 2 none).1 goodEvent 9
    (by decide) (by decide) (by decide) (by decide) (by decide) (by decide)

/-- C1 counterexample: settlement is not observed identically by every
waiter. After registering "e1" (original promise 0) and attaching a second
waiter via waitForExistingPayment (promise 1), the timeout settlement
invokes only the resolver captured at registration, bypassing the wrapper:
the original waiter observes `false` while the attached waiter is never
resolved at all — so not every waiter observes the same boolean outcome. -/
theorem settleTwice_waiters_counterexample :
    promiseValue (timeoutFire demoAttached "e1" 0) 0 = some false ∧
    promiseValue (timeoutFire demoAttached "e1" 0) 1 = none := by
  exact ⟨by decide, by decide⟩

/-- C1 (amended): settlement of a live entry is exactly-once and first-wins
in the match-vs-timeout race. If the match settlement runs first, every
waiter in the entry's resolver chain (original and attached) observes the
match outcome and the later timer is a complete no-op. If the timeout runs
first, the original registration promise observes `false` and keeps `false`
even if a late match settlement runs, and a second timer firing is a no-op;
however the timeout notifies only the originally captured resolver, so
waiters attached via waitForExistingPayment see no outcome from the timeout
itself and receive the late match settlement's own outcome instead. -/
theorem settle_firstWins (s : NostrState) (key : String) (p : PendingPayment)
    (outcome : Bool) (now : Nat) (pid0 : Nat) (rest : List Nat)
    (hk : assocGet s.pendingPayments key = some p)
    (ht : p.resolveTargets = pid0 :: rest)
    (hall : (p.resolveTargets.all
      (fun q => decide (assocGet s.promises q = some none))) = true)
    (hrest : (rest.all (fun q => decide (q ≠ pid0))) = true) :
    ((∀ q ∈ p.resolveTargets,
        promiseValue (settleMatched s key p outcome now) q = some outcome) ∧
     timeoutFire (settleMatched s key p outcome now) key pid0 =
        settleMatched s key p outcome now) ∧
    (promiseValue (timeoutFire s key pid0) pid0 = some false ∧
     (∀ q ∈ rest, promiseValue (timeoutFire s key pid0) q = none) ∧
     timeoutFire (timeoutFire s key pid0) key pid0 = timeoutFire s key pid0 ∧
     promiseValue (settleMatched (timeoutFire s key pid0) key p outcome now)
        pid0 = some false ∧
     (∀ q ∈ rest,
        promiseValue (settleMatched (timeoutFire s key pid0) key p outcome now)
          q = some outcome) ∧
     assocGet (settleMatched (timeoutFire s key pid0) key p outcome
        now).pendingPayments key = none) := by
  have hU : ∀ q ∈ p.resolveTargets, assocGet s.promises q = some none := by
    intro q hq
    exact of_decide_eq_true (List.all_eq_true.mp hall q hq)
  have hpid0mem : pid0 ∈ p.resolveTargets := by
    rw [ht]; exact List.mem_cons_self _ _
  have hpid0 : assocGet s.promises pid0 = some none := hU pid0 hpid0mem
  have hrest' : ∀ q ∈ rest, q ≠ pid0 := fun q hq =>
    of_decide_eq_true (List.all_eq_true.mp hrest q hq)
  have hA1 : ∀ q ∈ p.resolveTargets,
      promiseValue (settleMatched s key p outcome now) q = some outcome := by
    intro q hq
    have hv := promGet_resolveMany_mem p.resolveTargets outcome s q hq (hU q hq)
    exact promiseValue_of_get ((settleMatched_promGet s key p outcome now q).trans hv)
  have hA2 : timeoutFire (settleMatched s key p outcome now) key pid0 =
      settleMatched s key p outcome now := by
    apply timeoutFire_of_absent
    rw [settleMatched_pendingPayments]
    exact assocGet_assocDelete_self _ _
  have hteq := timeoutFire_eq s key pid0 hk
  have htprom0 : assocGet (timeoutFire s key pid0).promises pid0 =
      some (some false) := by
    rw [hteq]
    exact promGet_resolve_self false hpid0
  have hB1 : promiseValue (timeoutFire s key pid0) pid0 = some false :=
    promiseValue_of_get htprom0
  have htpromR : ∀ q ∈ rest,
      assocGet (timeoutFire s key pid0).promises q = some none := by
    intro q hq
    rw [hteq, promGet_resolve_ne false (hrest' q hq)]
    exact hU q (by rw [ht]; exact List.mem_cons_of_mem _ hq)
  have hB2 : ∀ q ∈ rest, promiseValue (timeoutFire s key pid0) q = none :=
    fun q hq => promiseValue_of_get (htpromR q hq)
  have htpp : (timeoutFire s key pid0).pendingPayments =
      assocDelete s.pendingPayments key := by
    rw [hteq, (resolvePromise_frame _ pid0 false).1]
  have hB3 : timeoutFire (timeoutFire s key pid0) key pid0 =
      timeoutFire s key pid0 := by
    apply timeoutFire_of_absent
    rw [htpp]
    exact assocGet_assocDelete_self _ _
  have hB4 : promiseValue
      (settleMatched (timeoutFire s key pid0) key p outcome now) pid0 =
      some false := by
    have hv := promGet_resolveMany_settled p.resolveTargets outcome
      (timeoutFire s key pid0) pid0 false htprom0
    exact promiseValue_of_get
      ((settleMatched_promGet _ key p outcome now pid0).trans hv)
  have hB5 : ∀ q ∈ rest, promiseValue
      (settleMatched (timeoutFire s key pid0) key p outcome now) q =
      some outcome := by
    intro q hq
    have hqmem : q ∈ p.resolveTargets := by
      rw [ht]; exact List.mem_cons_of_mem _ hq
    have hv := promGet_resolveMany_mem p.resolveTargets outcome
      (timeoutFire s key pid0) q hqmem (htpromR q hq)
    exact promiseValue_of_get
      ((settleMatched_promGet _ key p outcome now q).trans hv)
  have hB6 : assocGet (settleMatched (timeoutFire s key pid0) key p outcome
      now).pendingPayments key = none := by
    rw [settleMatched_pendingPayments]
    exact assocGet_assocDelete_self _ _
  exact ⟨⟨hA1, hA2⟩, hB1, hB2, hB3, hB4, hB5, hB6⟩

/-- Witness for the amended C1 theorem at the demo entry with an attached
waiter: a match-first settlement delivers `true` to the attached waiter,
and a timeout-first settlement delivers `false` to the original one. -/
theorem settle_firstWins_witness :
    promiseValue (settleMatched demoAttached "e1" demoPendingAttached true 7) 1 =
      some true ∧
    promiseValue (timeoutFire demoAttached "e1" 0) 0 = some false :=
  ⟨((settle_firstWins demoAttached "e1" demoPendingAttached true 7 0 [1]
      (by decide) (by decide) (by decide) (by decide)).1).1 1 (by decide),
   ((settle_firstWins demoAttached "e1" demoPendingAttached true 7 0 [1]
      (by decide) (by decide) (by decide) (by decide)).2).1⟩

/-- C3 counterexample: for the demo order "ord1" that already has the live
pending entry "e1", the confirm path does not reuse "e1": it sends a fresh
outbound payment request (new id "e2") and registers a second entry, so the
order now has two live pending entries at once. -/
theorem confirm_secondEntry_counterexample :
    confirmOrder demoReg "alice" "pk1" "ord1" "e2" "c" 5 =
      some ("e2",
        sendPaymentRequest demoReg "e2" "alice" "pk1" "ord1" (30 * UCT) "c" 5) ∧
    pendingCountForOrder
      (sendPaymentRequest demoReg "e2" "alice" "pk1" "ord1" (30 * UCT) "c"
        5).2 "ord1" = 2 ∧
    (assocGet (sendPaymentRequest demoReg "e2" "alice" "pk1" "ord1" (30 * UCT)
        "c" 5).2.pendingPayments "e1").isSome = true ∧
    ("e2" : String) ≠ "e1" := by
  exact ⟨by decide, by decide, by decide, by decide⟩

/-- C3 (amended): re-invoking confirm for an order that exists, belongs to
the caller and is still pending_payment always re-sends: it returns the
fresh requestId and registers a brand-new entry for the order under that id,
while any previously live entry for the same order remains registered
untouched — the existing entry's requestId and handle are not reused, and an
order can therefore have more than one live pending entry. (The helpers
getPendingPaymentForOrder / waitForExistingPayment that would support reuse
exist but are not called by the confirm path.) -/
theorem confirm_resends (s : NostrState) (uid pk oid newEv coin : String)
    (now : Nat) (o : Order) (oldEv : String) (pOld : PendingPayment)
    (ho : assocGet s.orderSvc.orders oid = some o)
    (hu : o.unicityId = uid)
    (hs : o.status = OrderStatus.pending_payment)
    (hold : assocGet s.pendingPayments oldEv = some pOld)
    (hne : oldEv ≠ newEv) :
    confirmOrder s uid pk oid newEv coin now =
      some (newEv, sendPaymentRequest s newEv uid pk oid o.totalPrice coin now) ∧
    assocGet (sendPaymentRequest s newEv uid pk oid o.totalPrice coin
        now).2.pendingPayments oldEv = some pOld ∧
    (assocGet (sendPaymentRequest s newEv uid pk oid o.totalPrice coin
        now).2.pendingPayments newEv).map PendingPayment.orderId = some oid := by
  refine ⟨?_, ?_, ?_⟩
  · unfold confirmOrder
    rw [ho]
    show (if o.unicityId ≠ uid then none
          else if o.status ≠ OrderStatus.pending_payment then none
          else some (newEv,
            sendPaymentRequest s newEv uid pk oid o.totalPrice coin now)) =
        some (newEv, sendPaymentRequest s newEv uid pk oid o.totalPrice coin now)
    rw [if_neg (fun hh => hh hu), if_neg (fun hh => hh hs)]
  · show assocGet (assocSet s.pendingPayments newEv _) oldEv = some pOld
    rw [assocGet_assocSet_ne _ _ _ _ hne]
    exact hold
  · show (assocGet (assocSet s.pendingPayments newEv _) newEv).map
        PendingPayment.orderId = some oid
    rw [assocGet_assocSet_self]
    rfl

/-- Witness for the amended C3 theorem: after the confirm-path resend "e2"
for the demo order, the prior live entry "e1" is still registered. -/
theorem confirm_resends_witness :
    assocGet (sendPaymentRequest demoReg "e2" "alice" "pk1" "ord1"
      (createOrder emptyOrderService "ord1" 0 "alice" mugWhite 2
        none).1.totalPrice "c" 5).2.pendingPayments "e1" = some demoPending :=
  (confirm_resends demoReg "alice" "pk1" "ord1" "e2" "c" 5
    (createOrder emptyOrderService "ord1" 0 "alice" mugWhite 2 none).1 "e1"
    demoPending (by decide) (by decide) (by decide) (by decide)
    (by decide)).2.1

/-- C8 counterexample: the order-creation path accepts a size for a product
that declares no sizes. Ordering "mug-white" (sizes absent) with size M
passes validation and creates the order with size M recorded, instead of
failing — so "any given size must be one of the product's declared sizes"
does not hold as stated. -/
theorem placeOrder_size_counterexample :
    (placedOrder (placeOrder emptyOrderService PRODUCTS (some "pk") "mug-white"
        1 (some TShirtSize.M) "o1" 0 "alice")).map Order.size =
      some (some TShirtSize.M) ∧
    mugWhite.sizes = none := by
  exact ⟨by decide, by decide⟩

/-- C8 (amended): the place_order path validates quantity in [1,10] (via
its zod input schema) and, when the product declares sizes, requires a size
and requires it to be among the declared ones, failing with the respective
error before any order is created; when the product declares no sizes the
declared-size membership check is skipped entirely, so a supplied size is
accepted and recorded on the created order. -/
theorem placeOrder_validation (s : OrderServiceState)
    (products : List (String × Product)) (pk productId : String)
    (quantity : Int) (size : Option TShirtSize) (orderId : String) (now : Nat)
    (unicityId : String) :
    ((quantity < 1 ∨ 10 < quantity) →
      placeOrder s products (some pk) productId quantity size orderId now
        unicityId = Except.error PlaceOrderError.invalidQuantity) ∧
    (∀ product szs, 1 ≤ quantity → quantity ≤ 10 →
      assocGet products productId = some product → product.inStock = true →
      product.sizes = some szs → size = none →
      placeOrder s products (some pk) productId quantity size orderId now
        unicityId = Except.error PlaceOrderError.sizeRequired) ∧
    (∀ product szs sz, 1 ≤ quantity → quantity ≤ 10 →
      assocGet products productId = some product → product.inStock = true →
      product.sizes = some szs → size = some sz → sz ∉ szs →
      placeOrder s products (some pk) productId quantity size orderId now
        unicityId = Except.error PlaceOrderError.sizeUnavailable) ∧
    (∀ product szs sz, 1 ≤ quantity → quantity ≤ 10 →
      assocGet products productId = some product → product.inStock = true →
      product.sizes = some szs → size = some sz → sz ∈ szs →
      placeOrder s products (some pk) productId quantity size orderId now
        unicityId =
        Except.ok (createOrder s orderId now unicityId product quantity size)) ∧
    (∀ product, 1 ≤ quantity → quantity ≤ 10 →
      assocGet products productId = some product → product.inStock = true →
      product.sizes = none →
      placeOrder s products (some pk) productId quantity size orderId now
        unicityId =
        Except.ok (createOrder s orderId now unicityId product quantity size)) := by
  refine ⟨?_, ?_, ?_, ?_, ?_⟩
  · intro h
    unfold placeOrder
    rw [if_pos h]
  · intro product szs h1 h2 hp hstock hsz hsn
    have hq : ¬ (quantity < 1 ∨ 10 < quantity) := by omega
    simp [placeOrder, hq, hp, hstock, hsz, hsn]
  · intro product szs sz h1 h2 hp hstock hsz hsv hmem
    have hq : ¬ (quantity < 1 ∨ 10 < quantity) := by omega
    simp [placeOrder, hq, hp, hstock, hsz, hsv, hmem]
  · intro product szs sz h1 h2 hp hstock hsz hsv hmem
    have hq : ¬ (quantity < 1 ∨ 10 < quantity) := by omega
    simp [placeOrder, hq, hp, hstock, hsz, hsv, hmem]
  · intro product h1 h2 hp hstock hsz
    have hq : ¬ (quantity < 1 ∨ 10 < quantity) := by omega
    cases size with
    | none => simp [placeOrder, hq, hp, hstock, hsz]
    | some sz => simp [placeOrder, hq, hp, hstock, hsz]

/-- Witness for the amended C8 theorem: a valid t-shirt order (size M in
the declared sizes, quantity 2) is accepted and created, while quantity 0
is rejected by the schema. -/
theorem placeOrder_validation_witness :
    placeOrder emptyOrderService PRODUCTS (some "pk") "tshirt-unicity" 2
        (some TShirtSize.M) "o1" 0 "alice" =
      Except.ok (createOrder emptyOrderService "o1" 0 "alice" tshirtUnicity 2
        (some TShirtSize.M)) ∧
    placeOrder emptyOrderService PRODUCTS (some "pk") "tshirt-unicity" 0
        (some TShirtSize.M) "o1" 0 "alice" =
      Except.error PlaceOrderError.invalidQuantity :=
  ⟨(placeOrder_validation emptyOrderService PRODUCTS "pk" "tshirt-unicity" 2
      (some TShirtSize.M) "o1" 0 "alice").2.2.2.1 tshirtUnicity
      [TShirtSize.S, TShirtSize.M, TShirtSize.L, TShirtSize.XL, TShirtSize.XXL]
      TShirtSize.M (by decide) (by decide) (by decide) (by decide) (by decide)
      (by decide) (by decide),
   (placeOrder_validation emptyOrderService PRODUCTS "pk" "tshirt-unicity" 0
      (some TShirtSize.M) "o1" 0 "alice").1 (by decide)⟩

/-- The part_002 service after sendPaymentRequest "e1" for the demo order:
nothing has been registered yet. -/
def v2Sent : NostrState := sendPaymentRequestV2 demoBase "e1" "ord1"

/-- The part_002 service after the early transfer event was (not) handled
and waitForPayment was then invoked, registering the entry too late. -/
def v2Reg : NostrState :=
  (waitForPaymentInvokeV2 (handleIncomingTransfer v2Sent goodEvent 2) "e1"
    "alice" "pk1" "ord1" (30 * UCT) "c" 3).2

/-- C10 counterexample: the two NostrService versions are not
observationally equivalent. For the same timing — a matching transfer
arriving after sendPaymentRequest returns but before waitForPayment is
invoked — the part_001 version (eager registration, demoReg) matches the
event and settles `true`, while in the part_002 version the event finds an
empty registry and is dropped (state unchanged), registration happens only
inside waitForPayment, and the request can then only time out to `false`. -/
theorem versions_diverge_counterexample :
    promiseValue (handleIncomingTransfer demoReg goodEvent 2) 0 = some true ∧
    handleIncomingTransfer v2Sent goodEvent 2 = v2Sent ∧
    promiseValue (timeoutFire v2Reg "e1" 0) 0 = some false ∧
    (some true : Option Bool) ≠ some false := by
  exact ⟨by decide, by decide, by decide, by decide⟩

/-- C10 (amended): the two versions agree whenever every inbound transfer
arrives after the pending entry has been registered — registration at the
end of sendPaymentRequest (part_001) and registration inside waitForPayment
(part_002) produce identical states, so from that point on every inbound
event is handled identically; the versions differ only in the window
between sendPaymentRequest returning and waitForPayment being invoked. -/
theorem versions_agree_afterRegistration (s : NostrState)
    (eventId uid pk oid : String) (amount : Int) (coin : String) (now : Nat) :
    waitForPaymentInvokeV2 (sendPaymentRequestV2 s eventId oid) eventId uid pk
        oid amount coin now =
      sendPaymentRequest s eventId uid pk oid amount coin now ∧
    ∀ (e : TransferEvent) (n : Nat),
      handleIncomingTransfer
        (waitForPaymentInvokeV2 (sendPaymentRequestV2 s eventId oid) eventId
          uid pk oid amount coin now).2 e n =
      handleIncomingTransfer
        (sendPaymentRequest s eventId uid pk oid amount coin now).2 e n := by
  have h : waitForPaymentInvokeV2 (sendPaymentRequestV2 s eventId oid) eventId
      uid pk oid amount coin now =
      sendPaymentRequest s eventId uid pk oid amount coin now := rfl
  exact ⟨h, fun e n => by rw [h]⟩

end Merch
